import Mathlib

/-!
Shallow embedding of `src/main.py` (a FastAPI attendance service) and proofs
of the specification claims about it.

Modelling conventions:
* `datetime` values are modelled as `Nat` (an abstract time point); the external
  library operations `datetime.now(timezone.utc)`, `datetime.fromisoformat` and
  `datetime.isoformat` are supplied by an environment record (`fromisoformat`
  returning `none` models the raising branch).
* Fallible external calls (`create_document`, `requests.post` +
  `raise_for_status`, `get_documents`, `db.list_collection_names`) are modelled
  as `Except String _` valued environment functions; `.error msg` models a
  raised exception whose `str()` is `msg`.
* Python truthiness of the `GOOGLE_SHEETS_WEBAPP_URL` value (`os.getenv`
  returns `None` or a string; the empty string is falsy) is modelled
  explicitly by `truthyUrl`.
* Python string slicing `s[:n]` is modelled by `strTake` (both take the first
  `n` code points).
-/

/-- Python `s[:n]`: the first `n` characters of `s`. -/
def strTake (s : String) (n : Nat) : String :=
  ⟨s.data.take n⟩

/-- Python truthiness of `os.getenv("GOOGLE_SHEETS_WEBAPP_URL")`:
`None` and the empty string are falsy. -/
def truthyUrl : Option String → Bool
  | none => false
  | some s => s ≠ ""

/-- The `scanned_at` member of the `data` dict produced by
`payload.model_dump()`: absent (`None`), a `datetime`, or a string.
(Through FastAPI the value is a parsed `datetime` or `None`; the string case
is the one the code's `isinstance(scanned_at, str)` branch handles.) -/
inductive ScannedAtField
  | absent
  | dt (t : Nat)
  | txt (s : String)
deriving DecidableEq

/-- The `source` member of the inbound JSON body, before pydantic validation:
omitted, explicit `null`, or a string. -/
inductive SourceField
  | omitted
  | null
  | val (s : String)
deriving DecidableEq

/-- Pydantic resolution of `source: Optional[str] = Field("qr", ...)`:
an omitted field gets the default `"qr"`; an explicit `null` stays `None`. -/
def SourceField.resolve : SourceField → Option String
  | .omitted => some "qr"
  | .null => none
  | .val s => some s

/-- The validated `AttendanceIn` payload, as the `data` dict seen by
`create_attendance` after `payload.model_dump()`. -/
structure AttendanceIn where
  name : String
  nisn : String
  major : String
  scanned_at : ScannedAtField
  source : Option String
deriving DecidableEq

/-- The fully resolved document passed to
`create_document("studentattendance", data)`. -/
structure InsertDoc where
  name : String
  nisn : String
  major : String
  scanned_at : Nat
  source : Option String
deriving DecidableEq

/-- The JSON payload passed to `requests.post(sheets_url, json=..., timeout=10)`.
`source = none` renders as JSON `null`. -/
structure ForwardPayload where
  name : String
  nisn : String
  major : String
  scanned_at : String
  source : Option String
deriving DecidableEq

/-- The dict returned by `create_attendance`. -/
structure SubmitResponse where
  ok : Bool
  id : Option String
  forward_to_sheets : String
deriving DecidableEq

/-- The observable behaviour of one `create_attendance` call: the document
handed to storage, the forwarding request (url, JSON payload, timeout) when
one is attempted, and the HTTP response body. -/
structure SubmitTrace where
  insertDoc : InsertDoc
  forward : Option (String × ForwardPayload × Nat)
  response : SubmitResponse
deriving DecidableEq

/-- External world of the submission path: the clock, the `datetime`
library, the webhook configuration, the storage gateway and the HTTP client. -/
structure Env where
  now : Nat
  fromiso : String → Option Nat
  iso : Nat → String
  sheets_url : Option String
  insert : InsertDoc → Except String String
  post : String → ForwardPayload → Nat → Except String Unit

/-- Lines 52-59 of `main.py`:
`scanned_at = data.get("scanned_at") or datetime.now(timezone.utc)` followed by
the `isinstance(scanned_at, str)` parse-with-fallback.  `absent` and the falsy
empty string resolve to `now`; a non-empty string is parsed, falling back to
`now` when `fromisoformat` raises. -/
def resolveScannedAt (env : Env) (p : AttendanceIn) : Nat :=
  match p.scanned_at with
  | .absent => env.now
  | .dt t => t
  | .txt s =>
    if s = "" then env.now
    else
      match env.fromiso s with
      | some t => t
      | none => env.now

/-- `create_attendance` (lines 48-94 of `main.py`): resolve the timestamp,
attempt the insert (absorbing failure as `id = None`), attempt the forward
when the webhook url is truthy (absorbing failure into the status string),
and return `ok = True` with the id and the forward status. -/
def create_attendance (env : Env) (p : AttendanceIn) : SubmitTrace :=
  let scanned_at := resolveScannedAt env p
  let doc : InsertDoc := ⟨p.name, p.nisn, p.major, scanned_at, p.source⟩
  let inserted_id :=
    match env.insert doc with
    | .ok i => some i
    | .error _ => none
  let fwd : Option (String × ForwardPayload × Nat) :=
    match env.sheets_url with
    | none => none
    | some url =>
      if url = "" then none
      else some (url, ⟨p.name, p.nisn, p.major, env.iso scanned_at, p.source⟩, 10)
  let forward_status :=
    match fwd with
    | none => "skipped"
    | some (url, pl, t) =>
      match env.post url pl t with
      | .ok _ => "ok"
      | .error e => "error: " ++ strTake e 120
  ⟨doc, fwd, ⟨true, inserted_id, forward_status⟩⟩

/-- A timestamp-valued member of a stored document: either a `datetime` or
already a string (the store enforces no schema; the code's `isinstance`
checks handle exactly these two live cases). -/
inductive TimeVal
  | dt (t : Nat)
  | txt (s : String)
deriving DecidableEq

/-- A document returned by `get_documents`, restricted to the members
`list_attendance` inspects; `oid` is the string rendering of `_id` when the
member is present (other members pass through unchanged and are not
modelled). -/
structure Doc where
  oid : Option String
  scanned_at : Option TimeVal
  created_at : Option TimeVal
  updated_at : Option TimeVal
deriving DecidableEq

/-- A converted document as returned to the caller of `GET /attendance`. -/
structure DocOut where
  id : String
  scanned_at : Option String
  created_at : Option String
  updated_at : Option String
deriving DecidableEq

/-- The `isinstance(..., datetime)` conversion applied to one timestamp
member: a `datetime` is rendered with `isoformat`, anything else is left
unchanged. -/
def convertTime (iso : Nat → String) : Option TimeVal → Option String
  | none => none
  | some (.dt t) => some (iso t)
  | some (.txt s) => some s

/-- The per-document conversion loop body (lines 104-112 of `main.py`):
`d["id"] = str(d.pop("_id", ""))` and the three timestamp conversions. -/
def convertDoc (iso : Nat → String) (d : Doc) : DocOut :=
  ⟨d.oid.getD "", convertTime iso d.scanned_at, convertTime iso d.created_at,
    convertTime iso d.updated_at⟩

/-- The sort key `lambda x: x.get("created_at", "")` (after conversion the
member, when present, is a string). -/
def sortKey (d : DocOut) : String :=
  d.created_at.getD ""

/-- Lexicographic `<=` on code-point sequences: Python's `<=` on `str`. -/
def listLe : List Char → List Char → Bool
  | [], _ => true
  | _ :: _, [] => false
  | a :: as, b :: bs =>
    if a.toNat < b.toNat then true
    else if b.toNat < a.toNat then false
    else listLe as bs

/-- Python string comparison `a <= b` (lexicographic by code point). -/
def pyStrLe (a b : String) : Bool :=
  listLe a.data b.data

/-- The order used by `result.sort(key=..., reverse=True)`: `a` goes before
`b` when `a`'s key is greater than or equal to `b`'s (descending). -/
def docLe (a b : DocOut) : Bool :=
  pyStrLe (sortKey b) (sortKey a)

/-- External world of the listing path: the `datetime` rendering and the
storage gateway's `get_documents` (`.error` models a raised exception,
which the surrounding `try` turns into `[]`). -/
structure ListEnv where
  iso : Nat → String
  find : Nat → Except String (List Doc)

/-- `list_attendance` (lines 97-118 of `main.py`): fetch, convert each
document, then `result.sort(key=lambda x: x.get("created_at", ""),
reverse=True)` — a stable descending sort by `sortKey`, modelled by
`mergeSort` with the relation "later or equal key goes first"; any storage
exception yields `[]`. -/
def list_attendance (env : ListEnv) (limit : Nat) : List DocOut :=
  match env.find limit with
  | .error _ => []
  | .ok docs => (docs.map (convertDoc env.iso)).mergeSort docLe

/-- Outcome of `from database import db` (line 135 of `main.py`):
an `ImportError`, some other exception (whose `str()` is carried), or a
module whose `db` is `None` or a handle. -/
inductive DbImport (H : Type)
  | importError
  | otherError (e : String)
  | ok (db : Option H)

/-- The `db` handle used by `test_database`: its optional `name` attribute
(`hasattr(db, 'name')`) and the outcome of `db.list_collection_names()`. -/
structure DbHandle where
  name : Option String
  listCollectionNames : Except String (List String)

/-- External world of the `/test` endpoint: the import outcome and whether
the two configuration environment variables are set. -/
structure TestEnv where
  dbimport : DbImport DbHandle
  database_url_set : Bool
  database_name_set : Bool

/-- The response dict of `test_database`. `database_url` and `database_name`
are `Option String` because they are initialised to `None`. -/
structure TestResponse where
  backend : String
  database : String
  database_url : Option String
  database_name : Option String
  connection_status : String
  collections : List String
deriving DecidableEq

/-- `test_database` (lines 121-163 of `main.py`): build the default response,
run the guarded diagnostic steps (import, `db is not None`, collection
enumeration, each failure caught and rendered as a status string), then
unconditionally overwrite `database_url` / `database_name` from the
environment variables. -/
def test_database (env : TestEnv) : TestResponse :=
  let r0 : TestResponse :=
    ⟨"✅ Running", "❌ Not Available", none, none, "Not Connected", []⟩
  let r1 :=
    match env.dbimport with
    | .importError =>
      { r0 with database := "❌ Database module not found (run enable-database first)" }
    | .otherError e =>
      { r0 with database := "❌ Error: " ++ strTake e 50 }
    | .ok none =>
      { r0 with database := "⚠️  Available but not initialized" }
    | .ok (some h) =>
      let r := { r0 with
        database := "✅ Available"
        database_url := some "✅ Configured"
        database_name := some (h.name.getD "✅ Connected")
        connection_status := "Connected" }
      match h.listCollectionNames with
      | .ok cols =>
        { r with collections := cols.take 10, database := "✅ Connected & Working" }
      | .error e =>
        { r with database := "⚠️  Connected but Error: " ++ strTake e 50 }
  { r1 with
    database_url := some (if env.database_url_set then "✅ Set" else "❌ Not Set")
    database_name := some (if env.database_name_set then "✅ Set" else "❌ Not Set") }

/-! ### Helper lemmas -/

theorem strTake_length (s : String) (n : Nat) : (strTake s n).length ≤ n := by
  show (s.data.take n).length ≤ n
  rw [List.length_take]
  omega

theorem listLe_trans (a : List Char) : ∀ b c, listLe a b = true → listLe b c = true →
    listLe a c = true := by
  induction a with
  | nil => intro b c _ _; rfl
  | cons x xs ih =>
    intro b c h1 h2
    cases b with
    | nil => simp [listLe] at h1
    | cons y ys =>
      cases c with
      | nil => simp [listLe] at h2
      | cons z zs =>
        simp only [listLe] at h1 h2 ⊢
        split_ifs at h1 h2 ⊢ with hxy hyx hyz hzy hxz hzx <;>
          first
          | rfl
          | omega
          | (exact ih ys zs h1 h2)

theorem listLe_total (a : List Char) : ∀ b, listLe a b = true ∨ listLe b a = true := by
  induction a with
  | nil => intro b; left; rfl
  | cons x xs ih =>
    intro b
    cases b with
    | nil => right; rfl
    | cons y ys =>
      simp only [listLe]
      rcases Nat.lt_trichotomy x.toNat y.toNat with h | h | h
      · left; simp [h]
      · rcases ih ys with hc | hc
        · left; simp [h, hc, Nat.lt_irrefl]
        · right; simp [h, hc, Nat.lt_irrefl]
      · right; simp [h]

theorem listLe_nil_right (l : List Char) (h : listLe l [] = true) : l = [] := by
  cases l with
  | nil => rfl
  | cons x xs => simp [listLe] at h

theorem docLe_trans (a b c : DocOut) (h1 : docLe a b = true) (h2 : docLe b c = true) :
    docLe a c = true :=
  listLe_trans _ _ _ h2 h1

theorem docLe_total (a b : DocOut) : (docLe a b || docLe b a) = true := by
  rcases listLe_total (sortKey b).data (sortKey a).data with h | h <;>
    simp [docLe, pyStrLe, h]

theorem pyStrLe_empty_right (k : String) (h : pyStrLe k "" = true) : k = "" := by
  have hd : k.data = [] := listLe_nil_right _ h
  exact congrArg String.mk hd

/-! ### Concrete inputs used by witnesses and counterexamples -/

/-- A concrete `isoformat` rendering for witness environments. -/
def isoW : Nat → String := fun t => "T" ++ toString t

/-- A healthy submission environment: webhook configured, storage and HTTP
both succeed, `fromisoformat` always raises. -/
def envOkW : Env :=
  { now := 42
    fromiso := fun _ => none
    iso := isoW
    sheets_url := some "https://sheets.example"
    insert := fun _ => Except.ok "abc123"
    post := fun _ _ _ => Except.ok () }

/-- A submission environment where storage and forwarding both raise. -/
def envDownW : Env :=
  { now := 42
    fromiso := fun _ => none
    iso := isoW
    sheets_url := some "https://sheets.example"
    insert := fun _ => Except.error "db down"
    post := fun _ _ _ => Except.error "boom" }

/-- A submission payload with no `scanned_at` and the defaulted source. -/
def pW : AttendanceIn :=
  ⟨"Ana", "123", "CS", ScannedAtField.absent, some "qr"⟩

/-- A submission payload whose `scanned_at` is an unparsable string. -/
def pTxtW : AttendanceIn :=
  ⟨"Ana", "123", "CS", ScannedAtField.txt "notadate", some "qr"⟩

/-- The forwarding request `create_attendance envOkW pW` performs. -/
def fwdW : String × ForwardPayload × Nat :=
  ("https://sheets.example",
    ⟨"Ana", "123", "CS", envOkW.iso (resolveScannedAt envOkW pW), some "qr"⟩, 10)

/-- A listing environment whose storage raises on every call. -/
def lenvDownW : ListEnv :=
  ⟨isoW, fun _ => Except.error "db down"⟩

/-- A listing environment returning a single well-formed document. -/
def lenvW : ListEnv :=
  ⟨isoW, fun _ => Except.ok [⟨some "a", none, some (TimeVal.dt 5), none⟩]⟩

/-- A listing environment returning one document without `created_at` first
and one whose `created_at` is the empty string second. -/
def lenvC3 : ListEnv :=
  ⟨isoW, fun _ => Except.ok
    [⟨some "a", none, none, none⟩, ⟨some "b", none, some (TimeVal.txt ""), none⟩]⟩

/-! ### Claim theorems -/

/-- C1: for every submission payload and every behaviour of storage and
forwarding, `create_attendance` responds with `ok = true`; no storage or
forwarding failure ever surfaces as an error to the caller (the embedding
is a total function, so no exception escapes either). -/
theorem create_attendance_always_ok (env : Env) (p : AttendanceIn) :
    (create_attendance env p).response.ok = true := rfl

/-- C2: `forward_to_sheets` is exactly one of `"skipped"` (webhook url not
configured, i.e. falsy), `"ok"` (the HTTP call succeeds), or
`"error: " ++` the exception message truncated to 120 characters — hence at
most 127 characters — when the call raises. -/
theorem forward_status_classification (env : Env) (p : AttendanceIn) :
    (truthyUrl env.sheets_url = false ∧
      (create_attendance env p).response.forward_to_sheets = "skipped") ∨
    (truthyUrl env.sheets_url = true ∧
      ∃ url pl,
        (create_attendance env p).forward = some (url, pl, 10) ∧
        ((env.post url pl 10 = Except.ok () ∧
            (create_attendance env p).response.forward_to_sheets = "ok") ∨
         (∃ e, env.post url pl 10 = Except.error e ∧
            (create_attendance env p).response.forward_to_sheets =
              "error: " ++ strTake e 120 ∧
            (create_attendance env p).response.forward_to_sheets.length ≤ 127))) := by
  rcases henv : env.sheets_url with _ | url
  · left
    exact ⟨by simp [truthyUrl, henv], by simp [create_attendance, henv]⟩
  · by_cases hu : url = ""
    · left
      exact ⟨by simp [truthyUrl, henv, hu], by simp [create_attendance, henv, hu]⟩
    · right
      refine ⟨by simp [truthyUrl, henv, hu], url,
        ⟨p.name, p.nisn, p.major, env.iso (resolveScannedAt env p), p.source⟩,
        by simp [create_attendance, henv, hu], ?_⟩
      rcases hp : env.post url
          ⟨p.name, p.nisn, p.major, env.iso (resolveScannedAt env p), p.source⟩ 10
          with e | u
      · right
        refine ⟨e, rfl, by simp [create_attendance, henv, hu, hp], ?_⟩
        have h1 : (create_attendance env p).response.forward_to_sheets =
            "error: " ++ strTake e 120 := by
          simp [create_attendance, henv, hu, hp]
        rw [h1, String.length_append]
        have h2 : ("error: " : String).length = 7 := rfl
        have h3 := strTake_length e 120
        omega
      · left
        exact ⟨rfl, by simp [create_attendance, henv, hu, hp]⟩

/-- C4: when every storage operation raises, `list_attendance` returns the
empty list and `create_attendance` still returns (with `id = none`); both
embeddings are total, so nothing is thrown to the caller. -/
theorem storage_unavailable_degrades (env : Env) (lenv : ListEnv)
    (p : AttendanceIn) (limit : Nat)
    (hins : ∀ d, ∃ m, env.insert d = Except.error m)
    (hfind : ∀ n, ∃ m, lenv.find n = Except.error m) :
    list_attendance lenv limit = [] ∧
    (create_attendance env p).response.id = none := by
  obtain ⟨m, hm⟩ := hfind limit
  obtain ⟨m2, hm2⟩ := hins ⟨p.name, p.nisn, p.major, resolveScannedAt env p, p.source⟩
  exact ⟨by simp [list_attendance, hm], by simp [create_attendance, hm2]⟩

/-- Witness for C4 at a concrete environment where both storage calls raise. -/
theorem storage_unavailable_degrades_witness :
    list_attendance lenvDownW 50 = [] ∧
    (create_attendance envDownW pW).response.id = none :=
  storage_unavailable_degrades envDownW lenvDownW pW 50
    (fun _ => ⟨"db down", rfl⟩) (fun _ => ⟨"db down", rfl⟩)

/-- C5: a submission whose `scanned_at` is a string that `fromisoformat`
cannot parse resolves to the current UTC time; the request still completes
normally with `ok = true` (the parse failure is swallowed). -/
theorem scanned_at_parse_fallback (env : Env) (p : AttendanceIn) (s : String)
    (hs : p.scanned_at = ScannedAtField.txt s)
    (hp : env.fromiso s = none) :
    resolveScannedAt env p = env.now ∧
    (create_attendance env p).insertDoc.scanned_at = env.now ∧
    (create_attendance env p).response.ok = true := by
  have h1 : resolveScannedAt env p = env.now := by
    unfold resolveScannedAt
    rw [hs]
    by_cases h : s = "" <;> simp [h, hp]
  exact ⟨h1, h1, rfl⟩

/-- Witness for C5 at a concrete unparsable timestamp string. -/
theorem scanned_at_parse_fallback_witness :
    resolveScannedAt envOkW pTxtW = envOkW.now ∧
    (create_attendance envOkW pTxtW).insertDoc.scanned_at = envOkW.now ∧
    (create_attendance envOkW pTxtW).response.ok = true :=
  scanned_at_parse_fallback envOkW pTxtW "notadate" rfl rfl

/-- The forwarding request of `create_attendance`, as a function of the
configured url (projection of the definition; used by several claims). -/
theorem create_attendance_forward (env : Env) (p : AttendanceIn) :
    (create_attendance env p).forward =
      match env.sheets_url with
      | none => none
      | some url =>
        if url = "" then none
        else some (url, ⟨p.name, p.nisn, p.major,
          env.iso (resolveScannedAt env p), p.source⟩, 10) := rfl

/-- No forwarding request is made when the url variable is unset. -/
theorem create_attendance_forward_none (env : Env) (p : AttendanceIn)
    (h : env.sheets_url = none) :
    (create_attendance env p).forward = none := by
  rw [create_attendance_forward, h]

/-- The forwarding request made when the url variable is set. -/
theorem create_attendance_forward_some (env : Env) (p : AttendanceIn)
    (url : String) (h : env.sheets_url = some url) :
    (create_attendance env p).forward =
      if url = "" then none
      else some (url, ⟨p.name, p.nisn, p.major,
        env.iso (resolveScannedAt env p), p.source⟩, 10) := by
  rw [create_attendance_forward, h]

/-- C6: whenever the webhook url is configured (truthy), the forwarding
request targets exactly that url with timeout 10 and a JSON payload holding
exactly the fields `name`, `nisn` (the student id number), `major`,
`scanned_at` as its `isoformat` rendering, and `source`. -/
theorem forward_payload_fields_timeout (env : Env) (p : AttendanceIn)
    (h : truthyUrl env.sheets_url = true) :
    ∃ url, env.sheets_url = some url ∧
      (create_attendance env p).forward =
        some (url, ⟨p.name, p.nisn, p.major,
          env.iso (resolveScannedAt env p), p.source⟩, 10) := by
  rcases henv : env.sheets_url with _ | url
  · rw [henv] at h
    simp [truthyUrl] at h
  · have hu : url ≠ "" := by
      rw [henv] at h
      simpa [truthyUrl] using h
    refine ⟨url, rfl, ?_⟩
    rw [create_attendance_forward_some env p url henv, if_neg hu]

/-- Witness for C6 at a concrete configured environment. -/
theorem forward_payload_fields_timeout_witness :
    ∃ url, envOkW.sheets_url = some url ∧
      (create_attendance envOkW pW).forward =
        some (url, ⟨pW.name, pW.nisn, pW.major,
          envOkW.iso (resolveScannedAt envOkW pW), pW.source⟩, 10) :=
  forward_payload_fields_timeout envOkW pW rfl

/-- C7: the document handed to storage carries the resolved `scanned_at`
(a concrete `Nat`, never an optional value), an absent input resolves to the
current UTC time, and any forwarded payload renders exactly that same
resolved value. -/
theorem scanned_at_concrete_at_boundaries (env : Env) (p : AttendanceIn) :
    (create_attendance env p).insertDoc.scanned_at = resolveScannedAt env p ∧
    (p.scanned_at = ScannedAtField.absent → resolveScannedAt env p = env.now) ∧
    ∀ url pl t, (create_attendance env p).forward = some (url, pl, t) →
      pl.scanned_at = env.iso (resolveScannedAt env p) := by
  refine ⟨rfl, ?_, ?_⟩
  · intro h
    unfold resolveScannedAt
    rw [h]
  · intro url pl t hf
    rcases henv : env.sheets_url with _ | u
    · rw [create_attendance_forward_none env p henv] at hf
      exact Option.noConfusion hf
    · rw [create_attendance_forward_some env p u henv] at hf
      by_cases hu : u = ""
      · rw [if_pos hu] at hf
        exact Option.noConfusion hf
      · rw [if_neg hu] at hf
        injection hf with h2
        obtain ⟨-, h3⟩ := Prod.mk.inj h2
        obtain ⟨hpl, -⟩ := Prod.mk.inj h3
        rw [← hpl]

/-- Witness for C7 at a concrete environment with an absent `scanned_at`. -/
theorem scanned_at_concrete_at_boundaries_witness :
    (create_attendance envOkW pW).insertDoc.scanned_at = resolveScannedAt envOkW pW ∧
    resolveScannedAt envOkW pW = envOkW.now ∧
    fwdW.2.1.scanned_at = envOkW.iso (resolveScannedAt envOkW pW) := by
  have h := scanned_at_concrete_at_boundaries envOkW pW
  exact ⟨h.1, h.2.1 rfl, h.2.2 fwdW.1 fwdW.2.1 fwdW.2.2 rfl⟩

/-- C8: an omitted `source` field is defaulted to `"qr"` by the model layer,
so the persisted document and any forwarded payload carry `source = "qr"`. -/
theorem source_defaults_to_qr (env : Env) (nm ni mj : String)
    (sc : ScannedAtField) :
    SourceField.resolve SourceField.omitted = some "qr" ∧
    (create_attendance env
        ⟨nm, ni, mj, sc, SourceField.resolve SourceField.omitted⟩).insertDoc.source
      = some "qr" ∧
    ∀ url pl t,
      (create_attendance env
          ⟨nm, ni, mj, sc, SourceField.resolve SourceField.omitted⟩).forward
        = some (url, pl, t) →
      pl.source = some "qr" := by
  refine ⟨rfl, rfl, ?_⟩
  intro url pl t hf
  rcases henv : env.sheets_url with _ | u
  · rw [create_attendance_forward_none env _ henv] at hf
    exact Option.noConfusion hf
  · rw [create_attendance_forward_some env _ u henv] at hf
    by_cases hu : u = ""
    · rw [if_pos hu] at hf
      exact Option.noConfusion hf
    · rw [if_neg hu] at hf
      injection hf with h2
      obtain ⟨-, h3⟩ := Prod.mk.inj h2
      obtain ⟨hpl, -⟩ := Prod.mk.inj h3
      rw [← hpl]
      rfl

/-- Witness for C8 at a concrete submission omitting `source`. -/
theorem source_defaults_to_qr_witness :
    SourceField.resolve SourceField.omitted = some "qr" ∧
    (create_attendance envOkW pW).insertDoc.source = some "qr" ∧
    fwdW.2.1.source = some "qr" := by
  have h := source_defaults_to_qr envOkW "Ana" "123" "CS" ScannedAtField.absent
  exact ⟨h.1, h.2.1, h.2.2 fwdW.1 fwdW.2.1 fwdW.2.2 rfl⟩

/-- The property claimed of the listing order: every record lacking a
`created_at` member is placed after every record that has one. -/
def missingLast (l : List DocOut) : Prop :=
  ∀ i j (hi : i < l.length) (hj : j < l.length),
    (l.get ⟨i, hi⟩).created_at = none →
    (l.get ⟨j, hj⟩).created_at ≠ none →
    j < i

/-- C3 counterexample: with two gateway documents — the first lacking
`created_at`, the second carrying `created_at = ""` — the stable descending
sort keeps both keys equal to `""` in input order, so the record lacking
`created_at` comes first, before a record that has one. -/
theorem list_attendance_missing_not_last :
    lenvC3.find 2 = Except.ok
      [⟨some "a", none, none, none⟩, ⟨some "b", none, some (TimeVal.txt ""), none⟩] ∧
    list_attendance lenvC3 2 =
      [⟨"a", none, none, none⟩, ⟨"b", none, some "", none⟩] ∧
    ¬ missingLast (list_attendance lenvC3 2) := by
  have hres : list_attendance lenvC3 2 =
      [⟨"a", none, none, none⟩, ⟨"b", none, some "", none⟩] := by
    have hmap : list_attendance lenvC3 2 =
        ([(⟨"a", none, none, none⟩ : DocOut),
          ⟨"b", none, some "", none⟩]).mergeSort docLe := rfl
    rw [hmap, List.mergeSort_of_sorted (by decide)]
  refine ⟨rfl, hres, ?_⟩
  rw [hres]
  intro hall
  have h01 := hall 0 1 (by decide) (by decide) rfl (by decide)
  exact absurd h01 (by decide)

/-- Modelled from the spec: the Storage Gateway contract of `get_documents`
(defined in `database.py`, which is not part of the sources): the gateway
fetches up to `limit` documents, so a successful call returns at most
`limit` of them. -/
def findHonoursLimit (env : ListEnv) (limit : Nat) : Prop :=
  ∀ docs, env.find limit = Except.ok docs → docs.length ≤ limit

/-- C3 (amended): assuming the storage gateway honours the limit, the
listing returns at most `limit` records, sorted by the `created_at` key
descending, and every record lacking `created_at` is placed after all
records whose `created_at` key is a nonempty string (a record whose
`created_at` is the empty string ties with the missing ones). -/
theorem list_attendance_limit_sorted (env : ListEnv) (limit : Nat)
    (hlim : findHonoursLimit env limit) :
    (list_attendance env limit).length ≤ limit ∧
    List.Sorted (fun a b => docLe a b = true) (list_attendance env limit) ∧
    ∀ i j (hi : i < (list_attendance env limit).length)
        (hj : j < (list_attendance env limit).length),
      ((list_attendance env limit).get ⟨i, hi⟩).created_at = none →
      sortKey ((list_attendance env limit).get ⟨j, hj⟩) ≠ "" →
      j < i := by
  have hsorted : List.Sorted (fun a b => docLe a b = true)
      (list_attendance env limit) := by
    cases hfind : env.find limit with
    | error e => simp [list_attendance, hfind]
    | ok docs =>
      have hmap : list_attendance env limit =
          (docs.map (convertDoc env.iso)).mergeSort docLe := by
        simp [list_attendance, hfind]
      rw [hmap]
      exact List.sorted_mergeSort docLe_trans docLe_total _
  have hlen : (list_attendance env limit).length ≤ limit := by
    cases hfind : env.find limit with
    | error e => simp [list_attendance, hfind]
    | ok docs =>
      have hmap : list_attendance env limit =
          (docs.map (convertDoc env.iso)).mergeSort docLe := by
        simp [list_attendance, hfind]
      rw [hmap, List.length_mergeSort, List.length_map]
      exact hlim docs hfind
  refine ⟨hlen, hsorted, ?_⟩
  intro i j hi hj hnone hne
  rcases Nat.lt_trichotomy j i with h | h | h
  · exact h
  · exfalso
    apply hne
    have hfin : (⟨j, hj⟩ : Fin (list_attendance env limit).length) = ⟨i, hi⟩ :=
      Fin.ext h
    have hnone2 : (list_attendance env limit)[i].created_at = none := hnone
    rw [hfin]
    simp [sortKey, hnone2]
  · exfalso
    have hrel := List.pairwise_iff_get.mp hsorted ⟨i, hi⟩ ⟨j, hj⟩ h
    have hnone2 : (list_attendance env limit)[i].created_at = none := hnone
    have hki : sortKey ((list_attendance env limit).get ⟨i, hi⟩) = "" := by
      simp [sortKey, hnone2]
    unfold docLe at hrel
    rw [hki] at hrel
    exact hne (pyStrLe_empty_right _ hrel)

/-- Witness for the amended C3 at a concrete one-document gateway. -/
theorem list_attendance_limit_sorted_witness :
    (list_attendance lenvW 2).length ≤ 2 ∧
    List.Sorted (fun a b => docLe a b = true) (list_attendance lenvW 2) := by
  have h := list_attendance_limit_sorted lenvW 2 (by
    intro docs hdocs
    injection hdocs with h2
    rw [← h2]
    decide)
  exact ⟨h.1, h.2.1⟩

/-- C9: the health endpoint (a total function in this embedding, so it never
raises) shows at most 10 collection names, reports whether each of the two
configuration environment variables is set, and renders each diagnostic
failure (module import, `db` not initialised, collection enumeration) as the
corresponding descriptive status string. -/
theorem test_database_diagnostics (env : TestEnv) :
    (test_database env).collections.length ≤ 10 ∧
    (test_database env).database_url =
      some (if env.database_url_set then "✅ Set" else "❌ Not Set") ∧
    (test_database env).database_name =
      some (if env.database_name_set then "✅ Set" else "❌ Not Set") ∧
    (match env.dbimport with
     | .importError =>
       (test_database env).database =
         "❌ Database module not found (run enable-database first)"
     | .otherError e =>
       (test_database env).database = "❌ Error: " ++ strTake e 50
     | .ok none =>
       (test_database env).database = "⚠️  Available but not initialized"
     | .ok (some h) =>
       match h.listCollectionNames with
       | .ok cols =>
         (test_database env).database = "✅ Connected & Working" ∧
         (test_database env).collections = cols.take 10
       | .error e =>
         (test_database env).database =
           "⚠️  Connected but Error: " ++ strTake e 50) := by
  obtain ⟨imp, us, ns⟩ := env
  cases imp with
  | importError => exact ⟨Nat.zero_le 10, rfl, rfl, rfl⟩
  | otherError e => exact ⟨Nat.zero_le 10, rfl, rfl, rfl⟩
  | ok db =>
    cases db with
    | none => exact ⟨Nat.zero_le 10, rfl, rfl, rfl⟩
    | some h =>
      obtain ⟨hname, hcols⟩ := h
      cases hcols with
      | error e => exact ⟨Nat.zero_le 10, rfl, rfl, rfl⟩
      | ok cols =>
        refine ⟨?_, rfl, rfl, rfl, rfl⟩
        have hc : (test_database ⟨DbImport.ok (some ⟨hname, Except.ok cols⟩), us, ns⟩).collections
            = cols.take 10 := rfl
        rw [hc, List.length_take]
        omega

/-- C10: the `database_url` and `database_name` members of the health
response are determined solely by whether `DATABASE_URL` and `DATABASE_NAME`
are set — the probe-time assignments (`"✅ Configured"`, the database name)
are unconditionally overwritten before the response is returned, so they are
never observable. -/
theorem test_database_env_vars_overwrite (env : TestEnv) :
    (test_database env).database_url =
      some (if env.database_url_set then "✅ Set" else "❌ Not Set") ∧
    (test_database env).database_name =
      some (if env.database_name_set then "✅ Set" else "❌ Not Set") ∧
    (test_database env).database_url ≠ some "✅ Configured" := by
  refine ⟨rfl, rfl, ?_⟩
  have h1 : (test_database env).database_url =
      some (if env.database_url_set then "✅ Set" else "❌ Not Set") := rfl
  rw [h1]
  cases env.database_url_set <;> decide
